import Mathlib

/-!
Verification of the MinerUVision document-processing pipeline.

This file shallowly embeds the parts of the repository that the checked
properties talk about:

* `utils/file_utils.py` — `normalize_core_files` and its key-mapping table
  `CORE_FILE_KEY_MAPPING` from `config.py`;
* `services/mineru_service.py` — the local GPU scheduler
  (`init_gpu_resources`, `get_available_gpus`, `process_locally`) and the
  remote dispatch loop (`get_available_remote_device`, `mark_device_status`,
  `process_remotely`);
* `tasks/combined_task_consumer.py` — `execute_image_description` and the
  control flow of `process_combined_task`;
* `services/office_service.py` and `utils/pdf_utils.py` — the two
  office-to-PDF converters.

Python dicts are modelled as insertion-ordered association lists, floats as
exact rationals, exceptions as `Except`, and the outcomes of external calls
(GPU driver queries, subprocesses, HTTP requests) as explicit oracles passed
to the embedded functions.
-/

namespace MinerUVision

/-! ### String helpers for the Python `in` operator and `pathlib.Path.name` -/

/-- Boolean prefix test on character lists: `isPref a b` is true iff `a` is a
prefix of `b`.  Used to express Python's substring operator. -/
def isPref : List Char → List Char → Bool
  | [], _ => true
  | _ :: _, [] => false
  | a :: as, b :: bs => a == b && isPref as bs

/-- Python's substring containment `pat in hay`, on character lists:
true iff `pat` occurs contiguously inside `hay` (the empty pattern is
contained in everything, as in Python). -/
def containsSub : List Char → List Char → Bool
  | [], pat => pat.isEmpty
  | h :: t, pat => isPref pat (h :: t) || containsSub t pat

/-- Python's `pat in hay` on strings. -/
def containsStr (hay pat : String) : Bool :=
  containsSub hay.data pat.data

/-- Characters after the last slash of `l` (the whole of `l` when it has no
slash). -/
def afterLastSlash (l : List Char) : List Char :=
  (l.reverse.takeWhile (fun c => c ≠ '/')).reverse

/-- `pathlib.Path(s).name` as used by `normalize_core_files`: the final
path component, i.e. the substring after the last `/`.  (The `pathlib`
special cases for `.`, `..` and trailing slashes are never exercised by
core-file keys, which are plain relative file names.) -/
def baseName (s : String) : String :=
  String.mk (afterLastSlash s.data)

/-! ### `config.CORE_FILE_KEY_MAPPING` and `file_utils.normalize_core_files` -/

/-- The ordered pattern-to-canonical-key table `CORE_FILE_KEY_MAPPING` of
`config.py` (Python dicts iterate in insertion order). -/
def CORE_FILE_KEY_MAPPING : List (String × String) :=
  [(".txt", "model_output.txt"),
   (".md", "result.md"),
   ("_middle.json", "middle.json"),
   ("_content_list.json", "content_list.json")]

/-- Key normalization for a single raw key: the canonical key of the first
pattern contained in the key, else the base filename (the `for ... else`
fallback of `normalize_core_files`). -/
def normalizeKey (k : String) : String :=
  match CORE_FILE_KEY_MAPPING.find? (fun p => containsStr k p.1) with
  | some p => p.2
  | none => baseName k

/-- Python dict assignment `d[k] = v` on an insertion-ordered association
list: overwrite in place when the key exists, else append. -/
def dictInsert : List (String × String) → String → String → List (String × String)
  | [], k, v => [(k, v)]
  | (k', v') :: rest, k, v =>
    if k' = k then (k', v) :: rest else (k', v') :: dictInsert rest k v

/-- `file_utils.normalize_core_files`: rebuild the dict, sending each raw
key through `normalizeKey`; later entries that normalize to an existing key
overwrite the earlier value. -/
def normalize_core_files (core_files : List (String × String)) : List (String × String) :=
  core_files.foldl (fun acc kv => dictInsert acc (normalizeKey kv.1) kv.2) []

/-- Keys of an association-list dict, in insertion order. -/
def dictKeys (d : List (String × String)) : List String := d.map Prod.fst

/-! ### The local GPU scheduler of `services/mineru_service.py` -/

/-- Local device status. -/
inductive GpuStatus
  | idle
  | busy
deriving DecidableEq, Repr

/-- Entry of the global `gpu_status` list: device id, status and total
memory in MB (a float in the source, modelled as an exact rational). -/
structure Gpu where
  id : Nat
  status : GpuStatus
  memory_total : ℚ
deriving DecidableEq, Repr

/-- `init_gpu_resources`: snapshot discovery — every driver-reported device
with positive total memory becomes an idle `Gpu` record; the capacity
semaphore is sized to the resulting count.  The driver query
`GPUtil.getGPUs()` is the oracle `raw` (id and memoryTotal of each
device). -/
def init_gpu_resources (raw : List (Nat × ℚ)) : List Gpu :=
  (raw.filter (fun p => 0 < p.2)).map
    (fun p => { id := p.1, status := GpuStatus.idle, memory_total := p.2 })

/-- Python `int(x)` (truncation toward zero) on a rational, computed as
T-division of the numerator by the (positive) denominator. -/
def pyInt (q : ℚ) : Int := Int.tdiv q.num (q.den : Int)

/-- The `min_required_memory` computation of `process_locally` (lines
89-95): `int(average(total memory) * 0.7)` when devices exist, else the
fixed floor 12288.  Float arithmetic is modelled exactly over ℚ. -/
def minRequiredMemory (gpus : List Gpu) : Int :=
  if gpus ≠ [] then
    pyInt ((gpus.map Gpu.memory_total).sum / (gpus.length : ℚ) * (7 / 10))
  else 12288

/-- `get_available_gpus`: the idle devices whose live free memory (oracle
`free`; `none` models a failed driver query, which the code logs and
skips) is at least `minMem`, paired with that free memory, in device-list
order. -/
def get_available_gpus (gpus : List Gpu) (free : Nat → Option ℚ) (minMem : ℚ) :
    List (Nat × ℚ) :=
  gpus.filterMap (fun g =>
    if g.status = GpuStatus.idle then
      match free g.id with
      | some f => if minMem ≤ f then some (g.id, f) else none
      | none => none
    else none)

/-- `available_gpus.sort(key=lambda x: x[1], reverse=True)` followed by
taking the head: the entry with the largest free memory, earliest first on
ties (Python's sort is stable). -/
def selectGpu : List (Nat × ℚ) → Option (Nat × ℚ)
  | [] => none
  | x :: rest => some (rest.foldl (fun b y => if b.2 < y.2 then y else b) x)

/-- Set the status of the first device with the given id (the
`for ... break` mutation pattern of `process_locally`). -/
def markGpu : List Gpu → Nat → GpuStatus → List Gpu
  | [], _, _ => []
  | g :: rest, gid, st =>
    if g.id = gid then { g with status := st } :: rest else g :: markGpu rest gid st

/-- Status of the first device with the given id. -/
def gpuStatusOf (gpus : List Gpu) (gid : Nat) : Option GpuStatus :=
  (gpus.find? (fun g => g.id == gid)).map Gpu.status

/-- The GPU-selection retry loop of `process_locally` (lines 101-118): up
to `fuel` attempts (10 in the source); each attempt queries availability —
free memory may change between attempts, hence the attempt-indexed oracle —
and picks the device with the most free memory.  Between failed attempts
the code sleeps `15 * (attempt + 1)` seconds; time is irrelevant to the
claims settled here and is not recorded. -/
def selectLoop (gpus : List Gpu) (free : Nat → Nat → Option ℚ) (minMem : ℚ) :
    Nat → Nat → Option Nat
  | 0, _ => none
  | fuel + 1, attempt =>
    match selectGpu (get_available_gpus gpus (free attempt) minMem) with
    | some p => some p.1
    | none => selectLoop gpus free minMem fuel (attempt + 1)

/-- Exceptional exits of `process_locally`. -/
inductive LocalErr
  | noGpu
  | noGpuAvailable
  | cacheEscape
deriving DecidableEq, Repr

/-- Normal returns of `process_locally`: the success dict, or the
`status: error` dict produced by the `except Exception` handler. -/
inductive LocalResult
  | success (gid : Nat)
  | errorDict (gid : Nat)
deriving DecidableEq, Repr

/-- Final state of one `process_locally` run: outcome, device list,
capacity-semaphore value, and the device selected (if any). -/
structure LocalRun where
  result : Except LocalErr LocalResult
  gpus : List Gpu
  sem : Nat
  selected : Option Nat

/-- The VRAM-cache cleanup inside the `finally` block of `process_locally`
(lines 203-209): the torch calls may raise (`cacheFails`), but the raise
is caught and logged by the surrounding `except`, so the cleanup never
propagates an error. -/
def tryCacheRelease (cacheFails : Bool) : Except String Unit :=
  match (if cacheFails then Except.error "cache release failed" else Except.ok ()) with
  | Except.error _ => Except.ok ()
  | Except.ok _ => Except.ok ()

/-- `process_locally` as a transition on the scheduler state, for a single
job.  The function first calls `init_gpu_resources` (resetting all
statuses to idle and sizing the capacity semaphore to the device count),
raises when no device was discovered, computes the memory threshold,
acquires a semaphore slot, runs the selection loop, and on selection marks
the device busy and runs the subprocess `try` body — `body` is its
outcome, `Except.error` covering both a nonzero exit code and any other
exception, which the `except Exception` handler converts into an error
dict.  The `finally` block marks the device idle again and releases the
VRAM cache (`cacheFails` makes that release raise); leaving the
`async with` block returns the semaphore slot. -/
def process_locally (raw : List (Nat × ℚ)) (free : Nat → Nat → Option ℚ)
    (body : Except String Unit) (cacheFails : Bool) : LocalRun :=
  let gpus := init_gpu_resources raw
  let semCount := gpus.length
  if gpus = [] then
    { result := Except.error LocalErr.noGpu, gpus := gpus, sem := semCount,
      selected := none }
  else
    let minReq := minRequiredMemory gpus
    match selectLoop gpus free (minReq : ℚ) 10 0 with
    | none =>
      { result := Except.error LocalErr.noGpuAvailable, gpus := gpus,
        sem := semCount - 1 + 1, selected := none }
    | some gid =>
      let busyGpus := markGpu gpus gid GpuStatus.busy
      let res : Except LocalErr LocalResult :=
        match body with
        | Except.ok _ => Except.ok (LocalResult.success gid)
        | Except.error _ => Except.ok (LocalResult.errorDict gid)
      let idleGpus := markGpu busyGpus gid GpuStatus.idle
      match tryCacheRelease cacheFails with
      | Except.error _ =>
        { result := Except.error LocalErr.cacheEscape, gpus := idleGpus,
          sem := semCount - 1 + 1, selected := some gid }
      | Except.ok _ =>
        { result := res, gpus := idleGpus, sem := semCount - 1 + 1,
          selected := some gid }

/-! ### The remote dispatch protocol of `services/mineru_service.py` -/

/-- Remote device status. -/
inductive RemoteStatus
  | idle
  | busy
  | error
deriving DecidableEq, Repr

/-- Entry of `config.REMOTE_DEVICES`. -/
structure RemoteDevice where
  name : String
  ip : String
  port : Nat
  device_type : String
  status : RemoteStatus
deriving DecidableEq, Repr

/-- The health sweep at the top of `get_available_remote_device`: every
device's status is set from its health probe (oracle `health`). -/
def health_sweep (health : String → Bool) (devs : List RemoteDevice) : List RemoteDevice :=
  devs.map (fun d =>
    { d with status := if health d.name then RemoteStatus.idle else RemoteStatus.error })

/-- `get_available_remote_device`: refresh every device's status, then
return the first device now idle, together with the refreshed list. -/
def get_available_remote_device (health : String → Bool) (devs : List RemoteDevice) :
    Option RemoteDevice × List RemoteDevice :=
  let devs' := health_sweep health devs
  (devs'.find? (fun d => d.status == RemoteStatus.idle), devs')

/-- `mark_device_status`: set the status of the first device with the
given name (`for ... break`). -/
def mark_device_status : List RemoteDevice → String → RemoteStatus → List RemoteDevice
  | [], _, _ => []
  | d :: rest, n, st =>
    if d.name = n then { d with status := st } :: rest
    else d :: mark_device_status rest n st

/-- Outcome of one dispatch attempt of `process_remotely`: the POST
succeeds with a success payload; fails at the transport level (the
`requests` ConnectionError / Timeout the code retries); returns a non-200
HTTP status; or returns a payload whose status field is not success (the
latter two raise `RuntimeError`, re-raised by the generic handler). -/
inductive AttemptOutcome
  | success
  | transportErr
  | httpErr
  | statusErr
deriving DecidableEq, Repr

/-- Observable events of a `process_remotely` run, in order. -/
inductive RemoteEvent
  | attempt (retries : Nat) (device : String)
  | sleep (secs : Nat)
  | markBusy (device : String)
  | markIdle (device : String)
deriving DecidableEq, Repr

/-- Terminal outcome of `process_remotely`. -/
inductive RemoteOutcome
  | ok (device : String)
  | raisedNoDevice
  | raisedApp (device : String)
  | raisedExhausted
deriving DecidableEq, Repr

/-- Result of a `process_remotely` run: outcome, final device list, and
the event trace. -/
structure RemoteRun where
  outcome : RemoteOutcome
  devs : List RemoteDevice
  trace : List RemoteEvent

/-- The `while retries < max_retries` loop of `process_remotely`
(lines 275-351); `fuel = max_retries - retries` is the remaining budget.
Each iteration selects a device after the health sweep (raising when none
is idle), marks it busy, and performs the attempt (`att`, indexed by the
current retry counter).  On success the parsed result is returned; on an
application-level error (non-200 HTTP status, or payload status not
success) the `RuntimeError` is re-raised by the generic `except` branch;
on a transport error the counter is incremented and the code sleeps
`2 ** retries` seconds before looping.  The `finally` block restores the
device to idle on every one of these paths — after the back-off sleep in
the transport case. -/
def remoteLoop (health : Nat → String → Bool) (att : Nat → AttemptOutcome) :
    Nat → Nat → List RemoteDevice → RemoteRun
  | 0, _, devs => { outcome := RemoteOutcome.raisedExhausted, devs := devs, trace := [] }
  | fuel + 1, retries, devs =>
    match get_available_remote_device (health retries) devs with
    | (none, devs1) =>
      { outcome := RemoteOutcome.raisedNoDevice, devs := devs1, trace := [] }
    | (some d, devs1) =>
      let devs2 := mark_device_status devs1 d.name RemoteStatus.busy
      let pre := [RemoteEvent.markBusy d.name, RemoteEvent.attempt retries d.name]
      match att retries with
      | AttemptOutcome.success =>
        { outcome := RemoteOutcome.ok d.name,
          devs := mark_device_status devs2 d.name RemoteStatus.idle,
          trace := pre ++ [RemoteEvent.markIdle d.name] }
      | AttemptOutcome.transportErr =>
        let rest := remoteLoop health att fuel (retries + 1)
            (mark_device_status devs2 d.name RemoteStatus.idle)
        { outcome := rest.outcome, devs := rest.devs,
          trace := pre ++ [RemoteEvent.sleep (2 ^ (retries + 1)),
                           RemoteEvent.markIdle d.name] ++ rest.trace }
      | AttemptOutcome.httpErr =>
        { outcome := RemoteOutcome.raisedApp d.name,
          devs := mark_device_status devs2 d.name RemoteStatus.idle,
          trace := pre ++ [RemoteEvent.markIdle d.name] }
      | AttemptOutcome.statusErr =>
        { outcome := RemoteOutcome.raisedApp d.name,
          devs := mark_device_status devs2 d.name RemoteStatus.idle,
          trace := pre ++ [RemoteEvent.markIdle d.name] }

/-- `process_remotely` with its retry counter starting at 0. -/
def process_remotely (devs : List RemoteDevice) (health : Nat → String → Bool)
    (att : Nat → AttemptOutcome) (max_retries : Nat) : RemoteRun :=
  remoteLoop health att max_retries 0 devs

/-- Number of dispatch attempts recorded in a trace. -/
def countAttempts (t : List RemoteEvent) : Nat :=
  t.countP (fun e => match e with | RemoteEvent.attempt _ _ => true | _ => false)

/-- The back-off sleeps of a trace, in order. -/
def sleepsOf (t : List RemoteEvent) : List Nat :=
  t.filterMap (fun e => match e with | RemoteEvent.sleep s => some s | _ => none)

/-- Trace discipline for device holding: a device may be marked busy only
when nothing is held, an attempt may run only on the device currently
held, `markIdle` releases exactly the held device, and at the end of the
trace nothing is held. -/
def balancedFrom : Option String → List RemoteEvent → Bool
  | held, [] => held.isNone
  | held, RemoteEvent.markBusy d :: rest => held.isNone && balancedFrom (some d) rest
  | held, RemoteEvent.markIdle d :: rest => (held == some d) && balancedFrom none rest
  | held, RemoteEvent.attempt _ d :: rest => (held == some d) && balancedFrom held rest
  | held, RemoteEvent.sleep _ :: rest => balancedFrom held rest

/-- A trace is balanced when the holding discipline holds from the empty
state. -/
def balancedTrace (t : List RemoteEvent) : Bool := balancedFrom none t

/-- No device of the list is marked busy. -/
def noBusyDevice (devs : List RemoteDevice) : Prop :=
  ∀ d ∈ devs, d.status ≠ RemoteStatus.busy

/-- The events of one transport-failed attempt at retry counter `r` on the
device named `n`: mark busy, attempt, back-off sleep of `2 ^ (r + 1)`
seconds, mark idle. -/
def transportBlock (r : Nat) (n : String) : List RemoteEvent :=
  [RemoteEvent.markBusy n, RemoteEvent.attempt r n,
   RemoteEvent.sleep (2 ^ (r + 1)), RemoteEvent.markIdle n]

/-- Trace of a run whose attempts all fail at the transport level, on the
given sequence of selected device names, starting at retry counter `r`. -/
def transportTrace (r : Nat) : List String → List RemoteEvent
  | [] => []
  | n :: ns => transportBlock r n ++ transportTrace (r + 1) ns

/-! ### The combined-task flow of `tasks/combined_task_consumer.py` -/

/-- Status field of a stage-result dict. -/
inductive StepStatus
  | success
  | error
deriving DecidableEq, Repr

/-- Result dict of one sub-step of the combined task. -/
structure StepResult where
  status : StepStatus
  errorMsg : Option String
deriving DecidableEq, Repr

/-- `execute_image_description` (lines 117-164): its body — model loading,
image extraction and description — either completes with `n` descriptions
(`Except.ok n`) or raises (`Except.error`); the wrapping `try/except`
converts a raise into a `status: error` dict, so the function itself never
raises. -/
def execute_image_description (body : Except String Nat) : StepResult :=
  match body with
  | Except.ok _ => { status := StepStatus.success, errorMsg := none }
  | Except.error e => { status := StepStatus.error, errorMsg := some e }

/-- Control flow of `process_combined_task` (lines 258-346): preprocess,
text extraction, image description, merge, in that order; a `status:
error` from any stage is raised and converted by the outer `except` into
the `{status: error}` result pushed to the Redis result channel; only the
all-success path pushes `{status: success}`.  The returned value is the
status of the result written to the channel. -/
def process_combined_task (pre : Except String Unit) (extract : StepResult)
    (imgBody : Except String Nat) (merge : StepResult) : StepStatus :=
  match pre with
  | Except.error _ => StepStatus.error
  | Except.ok _ =>
    if extract.status = StepStatus.error then StepStatus.error
    else
      let img := execute_image_description imgBody
      if img.status = StepStatus.error then StepStatus.error
      else if merge.status = StepStatus.error then StepStatus.error
      else StepStatus.success

/-! ### The two office-to-PDF converters -/

/-- The Office extensions of `config.SUPPORTED_FILE_TYPES['office']`. -/
def OFFICE_EXTENSIONS : List String := [".doc", ".docx", ".ppt", ".pptx", ".xls", ".xlsx"]

/-- Run record of `office_service.convert_to_pdf`: the returned path, the
number of converter-subprocess invocations, the sleeps performed between
retries, the `timeout` argument of each `subprocess.run` call (`none` = no
timeout passed), and the command of the invocation. -/
structure OfficeRun where
  result : Option String
  attempts : Nat
  sleeps : List Nat
  timeouts : List (Option Nat)
  cmd : List String
deriving DecidableEq, Repr

/-- `office_service.convert_to_pdf` (lines 54-118), the converter that the
pipeline's `preprocess_file` imports.  `file_ext` is the already-lowercased
`Path(input_file).suffix`, `output_dir`/`output_file` the precomputed
output directory and `os.path.join(output_dir, stem + ".pdf")`, and
`libreoffice_path` the resolved converter path (`none` when neither given
nor found by `find_libreoffice_path`).  The conversion is a single
`subprocess.run` call — headless, with **no** `timeout` argument and no
retry loop; it succeeds when the exit code is 0 and the output file exists
(`returncode`, `outputExists` oracles), and reports failure as `None`. -/
def office_convert_to_pdf (input_file file_ext output_dir output_file : String)
    (libreoffice_path : Option String) (returncode : Int) (outputExists : Bool) :
    OfficeRun :=
  if file_ext = ".pdf" then
    { result := some input_file, attempts := 0, sleeps := [], timeouts := [], cmd := [] }
  else if file_ext ∉ OFFICE_EXTENSIONS then
    { result := none, attempts := 0, sleeps := [], timeouts := [], cmd := [] }
  else
    match libreoffice_path with
    | none => { result := none, attempts := 0, sleeps := [], timeouts := [], cmd := [] }
    | some lo =>
      let cmd := [lo, "--headless", "--convert-to", "pdf", "--outdir", output_dir,
                  input_file]
      if returncode = 0 ∧ outputExists = true then
        { result := some output_file, attempts := 1, sleeps := [], timeouts := [none],
          cmd := cmd }
      else
        { result := none, attempts := 1, sleeps := [], timeouts := [none], cmd := cmd }

/-- Outcome of one `subprocess.run(..., timeout=300)` call in
`pdf_utils.convert_to_pdf`: the process completes (and the output PDF was
or was not produced with positive size), the 300-second timeout expires
(`subprocess.TimeoutExpired`), or another exception is raised. -/
inductive SubOutcome
  | completes (produced : Bool)
  | timesOut
  | raises
deriving DecidableEq, Repr

/-- Run record of the attempt loop of `pdf_utils.convert_to_pdf`. -/
structure PdfUtilsRun where
  result : Option String
  attempts : Nat
  sleeps : List Nat
  timeouts : List Nat
deriving DecidableEq, Repr

/-- The `for attempt in range(1, max_attempts + 1)` conversion loop of
`pdf_utils.convert_to_pdf` (lines 158-190).  Every invocation passes
`timeout=300`; after a completed run the code sleeps 2 s and checks the
output; on a failed check or a non-timeout exception it sleeps 5 s before
the next attempt (not after the last); a `TimeoutExpired` just moves to
the next attempt.  `fuel` is the number of attempts left. -/
def pdf_utils_convert_loop (sub : Nat → SubOutcome) (pdf_path : String) :
    Nat → Nat → PdfUtilsRun
  | 0, _ => { result := none, attempts := 0, sleeps := [], timeouts := [] }
  | fuel + 1, attempt =>
    match sub attempt with
    | SubOutcome.completes produced =>
      if produced then
        { result := some pdf_path, attempts := 1, sleeps := [2], timeouts := [300] }
      else if fuel = 0 then
        { result := none, attempts := 1, sleeps := [2], timeouts := [300] }
      else
        let rest := pdf_utils_convert_loop sub pdf_path fuel (attempt + 1)
        { result := rest.result, attempts := rest.attempts + 1,
          sleeps := [2, 5] ++ rest.sleeps, timeouts := 300 :: rest.timeouts }
    | SubOutcome.timesOut =>
      let rest := pdf_utils_convert_loop sub pdf_path fuel (attempt + 1)
      { result := rest.result, attempts := rest.attempts + 1,
        sleeps := rest.sleeps, timeouts := 300 :: rest.timeouts }
    | SubOutcome.raises =>
      if fuel = 0 then
        { result := none, attempts := 1, sleeps := [], timeouts := [300] }
      else
        let rest := pdf_utils_convert_loop sub pdf_path fuel (attempt + 1)
        { result := rest.result, attempts := rest.attempts + 1,
          sleeps := 5 :: rest.sleeps, timeouts := 300 :: rest.timeouts }

/-- The conversion phase of `pdf_utils.convert_to_pdf` with its default
`max_attempts = 3`. -/
def pdf_utils_convert (sub : Nat → SubOutcome) (pdf_path : String) : PdfUtilsRun :=
  pdf_utils_convert_loop sub pdf_path 3 1

/-! ### Supporting lemmas about `normalize_core_files` -/

/-- Recursive companion of `normalize_core_files` (its `foldl` written as
structural recursion, for induction). -/
def normAux (acc : List (String × String)) : List (String × String) → List (String × String)
  | [] => acc
  | kv :: rest => normAux (dictInsert acc (normalizeKey kv.1) kv.2) rest

lemma normalize_eq_normAux (m : List (String × String)) :
    normalize_core_files m = normAux [] m := by
  suffices h : ∀ acc, m.foldl (fun acc kv => dictInsert acc (normalizeKey kv.1) kv.2) acc
      = normAux acc m by
    exact h []
  induction m with
  | nil => intro acc; rfl
  | cons kv rest ih => intro acc; simp only [List.foldl, normAux]; exact ih _

lemma containsSub_cons (h : Char) (t pat : List Char) (hc : containsSub t pat = true) :
    containsSub (h :: t) pat = true := by
  simp [containsSub, hc]

lemma containsSub_append_left (pre l pat : List Char) (hc : containsSub l pat = true) :
    containsSub (pre ++ l) pat = true := by
  induction pre with
  | nil => simpa using hc
  | cons h t ih => exact containsSub_cons _ _ _ ih

lemma afterLastSlash_suffix (l : List Char) : ∃ pre, l = pre ++ afterLastSlash l := by
  refine ⟨(l.reverse.dropWhile (fun c => c ≠ '/')).reverse, ?_⟩
  have h := List.takeWhile_append_dropWhile (p := fun c => decide (c ≠ '/')) (l := l.reverse)
  calc l = l.reverse.reverse := (List.reverse_reverse l).symm
    _ = (l.reverse.takeWhile (fun c => c ≠ '/')
          ++ l.reverse.dropWhile (fun c => c ≠ '/')).reverse := by rw [h]
    _ = (l.reverse.dropWhile (fun c => c ≠ '/')).reverse ++ afterLastSlash l := by
          rw [List.reverse_append]; rfl

lemma afterLastSlash_idem (l : List Char) :
    afterLastSlash (afterLastSlash l) = afterLastSlash l := by
  have hall : ∀ c ∈ (afterLastSlash l).reverse, (fun c => decide (c ≠ '/')) c = true := by
    intro c hc
    rw [List.mem_reverse, afterLastSlash, List.mem_reverse] at hc
    simpa using List.mem_takeWhile_imp hc
  rw [afterLastSlash, List.takeWhile_eq_self_iff.mpr hall, List.reverse_reverse]

lemma containsStr_baseName (s pat : String) (h : containsStr (baseName s) pat = true) :
    containsStr s pat = true := by
  obtain ⟨pre, hpre⟩ := afterLastSlash_suffix s.data
  have hb : containsSub (afterLastSlash s.data) pat.data = true := h
  have : containsSub (pre ++ afterLastSlash s.data) pat.data = true :=
    containsSub_append_left _ _ _ hb
  rw [containsStr, hpre]
  exact this

lemma baseName_idem (s : String) : baseName (baseName s) = baseName s := by
  show String.mk (afterLastSlash (afterLastSlash s.data)) = String.mk (afterLastSlash s.data)
  rw [afterLastSlash_idem]

lemma normalizeKey_fix (k : String) : normalizeKey (normalizeKey k) = normalizeKey k := by
  cases hf : CORE_FILE_KEY_MAPPING.find? (fun p => containsStr k p.1) with
  | some p =>
    have hmem := List.mem_of_find?_eq_some hf
    have h1 : normalizeKey k = p.2 := by rw [normalizeKey, hf]
    rw [h1]
    simp only [CORE_FILE_KEY_MAPPING, List.mem_cons, List.not_mem_nil, or_false] at hmem
    rcases hmem with rfl | rfl | rfl | rfl <;> decide
  | none =>
    have h1 : normalizeKey k = baseName k := by rw [normalizeKey, hf]
    have hall := List.find?_eq_none.mp hf
    have hnone : CORE_FILE_KEY_MAPPING.find? (fun p => containsStr (baseName k) p.1) = none := by
      rw [List.find?_eq_none]
      intro p hp hcon
      exact hall p hp (containsStr_baseName k p.1 hcon)
    rw [h1]
    show normalizeKey (baseName k) = baseName k
    rw [normalizeKey, hnone, baseName_idem]

lemma dictKeys_dictInsert (d : List (String × String)) (k v : String) :
    dictKeys (dictInsert d k v)
      = if k ∈ dictKeys d then dictKeys d else dictKeys d ++ [k] := by
  induction d with
  | nil => simp [dictInsert, dictKeys]
  | cons hd tl ih =>
    obtain ⟨k', v'⟩ := hd
    by_cases hk : k' = k
    · subst hk
      simp [dictInsert, dictKeys]
    · have hne : k ≠ k' := fun h => hk h.symm
      simp only [dictInsert, if_neg hk, dictKeys, List.map_cons] at ih ⊢
      rw [ih]
      by_cases hmem : k ∈ List.map Prod.fst tl
      · simp [hmem, hne]
      · simp [hmem, hne]

lemma nodup_dictKeys_dictInsert (d : List (String × String)) (k v : String)
    (h : (dictKeys d).Nodup) : (dictKeys (dictInsert d k v)).Nodup := by
  rw [dictKeys_dictInsert]
  split_ifs with hmem
  · exact h
  · refine List.Nodup.append h (List.nodup_singleton k) ?_
    intro x hx hx'
    rw [List.mem_singleton] at hx'
    subst hx'
    exact hmem hx

lemma mem_dictKeys_dictInsert (d : List (String × String)) (k v x : String)
    (hx : x ∈ dictKeys (dictInsert d k v)) : x ∈ dictKeys d ∨ x = k := by
  rw [dictKeys_dictInsert] at hx
  split_ifs at hx with hmem
  · exact Or.inl hx
  · rcases List.mem_append.mp hx with h | h
    · exact Or.inl h
    · exact Or.inr (List.mem_singleton.mp h)

lemma normAux_nodup (m : List (String × String)) :
    ∀ acc, (dictKeys acc).Nodup → (dictKeys (normAux acc m)).Nodup := by
  induction m with
  | nil => intro acc h; exact h
  | cons kv rest ih =>
    intro acc h
    exact ih _ (nodup_dictKeys_dictInsert _ _ _ h)

lemma normAux_keys_origin (m : List (String × String)) :
    ∀ acc x, x ∈ dictKeys (normAux acc m) →
      x ∈ dictKeys acc ∨ ∃ k, x = normalizeKey k := by
  induction m with
  | nil => intro acc x hx; exact Or.inl hx
  | cons kv rest ih =>
    intro acc x hx
    rcases ih _ x hx with h | h
    · rcases mem_dictKeys_dictInsert _ _ _ _ h with h' | h'
      · exact Or.inl h'
      · exact Or.inr ⟨kv.1, h'⟩
    · exact Or.inr h

lemma dictInsert_append (acc : List (String × String)) (k v : String)
    (h : k ∉ dictKeys acc) : dictInsert acc k v = acc ++ [(k, v)] := by
  induction acc with
  | nil => rfl
  | cons hd tl ih =>
    obtain ⟨k', v'⟩ := hd
    have hk : k' ≠ k := by
      intro he
      exact h (by simp [dictKeys, he])
    have htl : k ∉ dictKeys tl := fun hm =>
      h (by simp only [dictKeys, List.map_cons, List.mem_cons]; exact Or.inr hm)
    simp [dictInsert, hk, ih htl]

lemma normAux_fixed (m : List (String × String)) :
    ∀ acc, (∀ k ∈ dictKeys m, normalizeKey k = k) → (dictKeys m).Nodup →
      (∀ k ∈ dictKeys acc, k ∉ dictKeys m) → normAux acc m = acc ++ m := by
  induction m with
  | nil => intro acc _ _ _; simp [normAux]
  | cons kv rest ih =>
    intro acc hfix hnodup hdisj
    obtain ⟨k, v⟩ := kv
    have hkkey : k ∈ dictKeys ((k, v) :: rest) := by simp [dictKeys]
    have hk : normalizeKey k = k := hfix k hkkey
    have hknotacc : k ∉ dictKeys acc := fun h => hdisj k h hkkey
    have hkeys : dictKeys ((k, v) :: rest) = k :: dictKeys rest := by simp [dictKeys]
    rw [hkeys] at hnodup
    have hknotrest : k ∉ dictKeys rest := (List.nodup_cons.mp hnodup).1
    have hrestnodup : (dictKeys rest).Nodup := (List.nodup_cons.mp hnodup).2
    show normAux (dictInsert acc (normalizeKey k) v) rest = acc ++ (k, v) :: rest
    rw [hk, dictInsert_append acc k v hknotacc]
    rw [ih (acc ++ [(k, v)])
      (fun k' hk' => hfix k' (by rw [hkeys]; exact List.mem_cons_of_mem _ hk'))
      hrestnodup ?disj]
    · simp
    case disj =>
      intro k' hk' hk'rest
      have : dictKeys (acc ++ [(k, v)]) = dictKeys acc ++ [k] := by simp [dictKeys]
      rw [this] at hk'
      rcases List.mem_append.mp hk' with h | h
      · exact hdisj k' h (by rw [hkeys]; exact List.mem_cons_of_mem _ hk'rest)
      · rw [List.mem_singleton] at h
        subst h
        exact hknotrest hk'rest

/-! ### Supporting lemmas about the remote dispatch loop -/

lemma names_health_sweep (health : String → Bool) (devs : List RemoteDevice) :
    (health_sweep health devs).map RemoteDevice.name = devs.map RemoteDevice.name := by
  induction devs with
  | nil => rfl
  | cons d rest ih => simp only [health_sweep, List.map_cons] at ih ⊢; rw [ih]

lemma names_mark_device_status (devs : List RemoteDevice) (n : String) (st : RemoteStatus) :
    (mark_device_status devs n st).map RemoteDevice.name = devs.map RemoteDevice.name := by
  induction devs with
  | nil => rfl
  | cons d rest ih =>
    by_cases h : d.name = n <;> simp [mark_device_status, h, ih]

lemma sweep_find_some (health : String → Bool) (devs : List RemoteDevice)
    (h : ∃ n ∈ devs.map RemoteDevice.name, health n = true) :
    ∃ d, (health_sweep health devs).find? (fun d => d.status == RemoteStatus.idle)
        = some d := by
  obtain ⟨n, hn, hh⟩ := h
  obtain ⟨d0, hd0, rfl⟩ := List.mem_map.mp hn
  have hmem : ({ d0 with status := RemoteStatus.idle } : RemoteDevice)
      ∈ health_sweep health devs := by
    rw [health_sweep]
    refine List.mem_map.mpr ⟨d0, hd0, ?_⟩
    simp [hh]
  have hsome : ((health_sweep health devs).find?
      (fun d => d.status == RemoteStatus.idle)).isSome := by
    rw [List.find?_isSome]
    exact ⟨_, hmem, by simp⟩
  exact Option.isSome_iff_exists.mp hsome

lemma mark_device_status_twice (devs : List RemoteDevice) (n : String)
    (st1 st2 : RemoteStatus) :
    mark_device_status (mark_device_status devs n st1) n st2
      = mark_device_status devs n st2 := by
  induction devs with
  | nil => rfl
  | cons d rest ih =>
    by_cases h : d.name = n
    · simp [mark_device_status, h]
    · simp [mark_device_status, h, ih]

lemma noBusy_health_sweep (health : String → Bool) (devs : List RemoteDevice) :
    noBusyDevice (health_sweep health devs) := by
  intro d hd
  obtain ⟨d0, _, rfl⟩ := List.mem_map.mp hd
  by_cases h : health d0.name = true <;> simp [h]

lemma noBusy_mark (devs : List RemoteDevice) (n : String) (st : RemoteStatus)
    (hst : st ≠ RemoteStatus.busy) (h : noBusyDevice devs) :
    noBusyDevice (mark_device_status devs n st) := by
  induction devs with
  | nil => intro d hd; cases hd
  | cons d rest ih =>
    have hhead := h d (List.mem_cons_self d rest)
    have htail : noBusyDevice rest := fun x hx => h x (List.mem_cons_of_mem d hx)
    intro x hx
    by_cases he : d.name = n
    · rw [mark_device_status, if_pos he] at hx
      rcases List.mem_cons.mp hx with rfl | hx'
      · exact hst
      · exact htail x hx'
    · rw [mark_device_status, if_neg he] at hx
      rcases List.mem_cons.mp hx with rfl | hx'
      · exact hhead
      · exact ih htail x hx'

lemma remoteLoop_noBusy (health : Nat → String → Bool) (att : Nat → AttemptOutcome) :
    ∀ fuel retries devs, noBusyDevice devs →
      noBusyDevice (remoteLoop health att fuel retries devs).devs := by
  intro fuel
  induction fuel with
  | zero => intro retries devs h; exact h
  | succ fuel ih =>
    intro retries devs h
    simp only [remoteLoop, get_available_remote_device]
    cases hf : (health_sweep (health retries) devs).find?
        (fun d => d.status == RemoteStatus.idle) with
    | none => exact noBusy_health_sweep _ _
    | some d =>
      have hidle : noBusyDevice (mark_device_status
          (mark_device_status (health_sweep (health retries) devs) d.name RemoteStatus.busy)
          d.name RemoteStatus.idle) := by
        rw [mark_device_status_twice]
        exact noBusy_mark _ _ _ (by simp) (noBusy_health_sweep _ _)
      cases hatt : att retries with
      | success => simpa using hidle
      | transportErr => simpa using ih (retries + 1) _ hidle
      | httpErr => simpa using hidle
      | statusErr => simpa using hidle

lemma remoteLoop_balanced (health : Nat → String → Bool) (att : Nat → AttemptOutcome) :
    ∀ fuel retries devs,
      balancedFrom none (remoteLoop health att fuel retries devs).trace = true := by
  intro fuel
  induction fuel with
  | zero => intro retries devs; rfl
  | succ fuel ih =>
    intro retries devs
    simp only [remoteLoop, get_available_remote_device]
    cases hf : (health_sweep (health retries) devs).find?
        (fun d => d.status == RemoteStatus.idle) with
    | none => rfl
    | some d =>
      cases hatt : att retries with
      | success => simp [balancedFrom]
      | transportErr => simp [balancedFrom, ih (retries + 1)]
      | httpErr => simp [balancedFrom]
      | statusErr => simp [balancedFrom]

lemma remoteLoop_transport (health : Nat → String → Bool) :
    ∀ fuel retries devs,
      (∀ r, ∃ n ∈ devs.map RemoteDevice.name, health r n = true) →
      (remoteLoop health (fun _ => AttemptOutcome.transportErr) fuel retries devs).outcome
          = RemoteOutcome.raisedExhausted
      ∧ ∃ ns : List String, ns.length = fuel
          ∧ (remoteLoop health (fun _ => AttemptOutcome.transportErr) fuel retries
              devs).trace = transportTrace retries ns := by
  intro fuel
  induction fuel with
  | zero =>
    intro retries devs _
    exact ⟨rfl, [], rfl, rfl⟩
  | succ fuel ih =>
    intro retries devs h
    obtain ⟨d, hd⟩ := sweep_find_some (health retries) devs (h retries)
    have hnames : (mark_device_status
        (mark_device_status (health_sweep (health retries) devs) d.name RemoteStatus.busy)
        d.name RemoteStatus.idle).map RemoteDevice.name = devs.map RemoteDevice.name := by
      rw [names_mark_device_status, names_mark_device_status, names_health_sweep]
    have h' : ∀ r, ∃ n ∈ (mark_device_status
        (mark_device_status (health_sweep (health retries) devs) d.name RemoteStatus.busy)
        d.name RemoteStatus.idle).map RemoteDevice.name, health r n = true := by
      rw [hnames]; exact h
    obtain ⟨hout, ns, hlen, htr⟩ := ih (retries + 1) _ h'
    simp only [remoteLoop, get_available_remote_device]
    rw [hd]
    refine ⟨hout, d.name :: ns, by simp [hlen], ?_⟩
    simp only [transportTrace, transportBlock]
    rw [htr]
    rfl

lemma countAttempts_transportTrace (ns : List String) :
    ∀ r, countAttempts (transportTrace r ns) = ns.length := by
  induction ns with
  | nil => intro r; rfl
  | cons n rest ih =>
    intro r
    have h2 := ih (r + 1)
    simp [transportTrace, transportBlock, countAttempts, List.countP_append] at h2 ⊢
    omega

/-! ### Supporting lemmas about the local GPU scheduler -/

lemma tryCacheRelease_ok (b : Bool) : tryCacheRelease b = Except.ok () := by
  cases b <;> rfl

lemma foldl_best_mem (rest : List (Nat × ℚ)) :
    ∀ x, rest.foldl (fun b y => if b.2 < y.2 then y else b) x ∈ x :: rest := by
  induction rest with
  | nil => intro x; exact List.mem_singleton.mpr rfl
  | cons y rest ih =>
    intro x
    rw [List.foldl_cons]
    by_cases hxy : x.2 < y.2
    · rw [if_pos hxy]
      exact List.mem_cons_of_mem x (ih y)
    · rw [if_neg hxy]
      rcases List.mem_cons.mp (ih x) with he | hm
      · exact List.mem_cons.mpr (Or.inl he)
      · exact List.mem_cons_of_mem x (List.mem_cons_of_mem y hm)

lemma foldl_best_max (rest : List (Nat × ℚ)) :
    ∀ x q, q ∈ x :: rest →
      q.2 ≤ (rest.foldl (fun b y => if b.2 < y.2 then y else b) x).2 := by
  induction rest with
  | nil =>
    intro x q hq
    rcases List.mem_singleton.mp hq with rfl
    exact le_refl _
  | cons y rest ih =>
    intro x q hq
    rw [List.foldl_cons]
    by_cases hxy : x.2 < y.2
    · rw [if_pos hxy]
      rcases List.mem_cons.mp hq with rfl | hq'
      · exact le_trans (le_of_lt hxy) (ih y y (List.mem_cons_self y rest))
      · exact ih y q hq'
    · rw [if_neg hxy]
      rcases List.mem_cons.mp hq with rfl | hq'
      · exact ih q q (List.mem_cons_self q rest)
      · rcases List.mem_cons.mp hq' with rfl | hq''
        · exact le_trans (not_lt.mp hxy) (ih x x (List.mem_cons_self x rest))
        · exact ih x q (List.mem_cons_of_mem x hq'')

lemma selectGpu_spec (avail : List (Nat × ℚ)) (p : Nat × ℚ)
    (h : selectGpu avail = some p) : p ∈ avail ∧ ∀ q ∈ avail, q.2 ≤ p.2 := by
  cases avail with
  | nil => cases h
  | cons x rest =>
    rw [selectGpu] at h
    injection h with h
    subst h
    exact ⟨foldl_best_mem rest x, fun q hq => foldl_best_max rest x q hq⟩

lemma mem_get_available_gpus (gpus : List Gpu) (free : Nat → Option ℚ) (minMem : ℚ)
    (i : Nat) (f : ℚ) :
    (i, f) ∈ get_available_gpus gpus free minMem ↔
      ∃ g ∈ gpus, g.id = i ∧ g.status = GpuStatus.idle ∧ free g.id = some f
        ∧ minMem ≤ f := by
  rw [get_available_gpus, List.mem_filterMap]
  constructor
  · rintro ⟨g, hg, hf⟩
    refine ⟨g, hg, ?_⟩
    by_cases hst : g.status = GpuStatus.idle
    · rw [if_pos hst] at hf
      cases hfr : free g.id with
      | none =>
        rw [hfr] at hf
        exact Option.noConfusion hf
      | some fv =>
        rw [hfr] at hf
        have hf' : (if minMem ≤ fv then some (g.id, fv) else none) = some (i, f) := hf
        by_cases hm : minMem ≤ fv
        · rw [if_pos hm] at hf'
          have h1 : g.id = i := congrArg Prod.fst (Option.some.inj hf')
          have h2 : fv = f := congrArg Prod.snd (Option.some.inj hf')
          rw [h2] at hm
          exact ⟨h1, hst, by rw [h2], hm⟩
        · rw [if_neg hm] at hf'
          exact Option.noConfusion hf'
    · rw [if_neg hst] at hf
      exact Option.noConfusion hf
  · rintro ⟨g, hg, hid, hst, hfr, hm⟩
    refine ⟨g, hg, ?_⟩
    rw [if_pos hst, hfr]
    simp [hm, hid]

lemma statusOf_markGpu (gpus : List Gpu) (gid : Nat) (st : GpuStatus)
    (h : ∃ g ∈ gpus, g.id = gid) :
    gpuStatusOf (markGpu gpus gid st) gid = some st := by
  induction gpus with
  | nil =>
    obtain ⟨g, hg, _⟩ := h
    cases hg
  | cons g rest ih =>
    by_cases he : g.id = gid
    · rw [markGpu, if_pos he]
      simp [gpuStatusOf, List.find?_cons_of_pos, he]
    · rw [markGpu, if_neg he]
      have h' : ∃ g' ∈ rest, g'.id = gid := by
        obtain ⟨g', hg', hid⟩ := h
        rcases List.mem_cons.mp hg' with rfl | hm
        · exact absurd hid he
        · exact ⟨g', hm, hid⟩
      have hne : (g.id == gid) = false := by simp [he]
      simpa [gpuStatusOf, List.find?_cons_of_neg, hne] using ih h'

lemma markGpu_twice (gpus : List Gpu) (gid : Nat) (st1 st2 : GpuStatus) :
    markGpu (markGpu gpus gid st1) gid st2 = markGpu gpus gid st2 := by
  induction gpus with
  | nil => rfl
  | cons g rest ih =>
    by_cases he : g.id = gid
    · simp [markGpu, he]
    · simp [markGpu, he, ih]

lemma selectLoop_mem (gpus : List Gpu) (free : Nat → Nat → Option ℚ) (minMem : ℚ) :
    ∀ fuel attempt gid, selectLoop gpus free minMem fuel attempt = some gid →
      ∃ g ∈ gpus, g.id = gid := by
  intro fuel
  induction fuel with
  | zero =>
    intro attempt gid h
    cases h
  | succ fuel ih =>
    intro attempt gid h
    rw [selectLoop] at h
    cases hsel : selectGpu (get_available_gpus gpus (free attempt) minMem) with
    | none =>
      rw [hsel] at h
      exact ih (attempt + 1) gid h
    | some p =>
      rw [hsel] at h
      injection h with h
      subst h
      obtain ⟨hmem, _⟩ := selectGpu_spec _ _ hsel
      obtain ⟨g, hg, hid, _, _, _⟩ :=
        (mem_get_available_gpus gpus (free attempt) minMem p.1 p.2).mp (by simpa using hmem)
      exact ⟨g, hg, hid⟩

lemma minRequired_single16000 :
    minRequiredMemory [{ id := 0, status := GpuStatus.idle, memory_total := 16000 }]
      = 11200 := by
  simp [minRequiredMemory, pyInt]
  norm_num

lemma avail_single16000_free10000 :
    get_available_gpus [{ id := 0, status := GpuStatus.idle, memory_total := 16000 }]
      (fun _ => some 10000) 11200 = [] := by
  simp [get_available_gpus]
  norm_num

lemma avail_single16000_free12000 :
    get_available_gpus [{ id := 0, status := GpuStatus.idle, memory_total := 16000 }]
      (fun _ => some 12000) 11200 = [(0, 12000)] := by
  norm_num [get_available_gpus]
  simp

lemma avail_single16000_free16000 :
    get_available_gpus [{ id := 0, status := GpuStatus.idle, memory_total := 16000 }]
      (fun _ => some 16000) ((11200 : ℤ) : ℚ) = [(0, 16000)] := by
  norm_num [get_available_gpus]
  simp

lemma process_locally_single16000_selected :
    (process_locally [(0, 16000)] (fun _ _ => some 16000)
        (Except.error "subprocess failed") true).selected = some 0 := by
  have hinit : init_gpu_resources [(0, 16000)] =
      [{ id := 0, status := GpuStatus.idle, memory_total := 16000 }] := by
    norm_num [init_gpu_resources]
  have hsel : selectLoop [{ id := 0, status := GpuStatus.idle, memory_total := 16000 }]
      (fun _ _ => some 16000)
      ((minRequiredMemory
          [{ id := 0, status := GpuStatus.idle, memory_total := 16000 }] : ℤ) : ℚ)
      10 0 = some 0 := by
    rw [minRequired_single16000, selectLoop, avail_single16000_free16000]
    rfl
  simp [process_locally, hinit, hsel, tryCacheRelease_ok]

/-! ### Claims C1, C3: the local GPU scheduler -/

/-- C1: every `process_locally` run that selects (and marks busy) a GPU —
whether the subprocess body succeeds, fails, or raises, and whether or not
the VRAM-cache release fails — leaves that GPU idle in the final state,
returns the capacity-semaphore slot (the semaphore is back at the
discovered device count), and returns a normal result dict rather than
propagating an exception: in particular a cache-release failure is only
logged, never raised. -/
theorem C1_release_invariant (raw : List (Nat × ℚ)) (free : Nat → Nat → Option ℚ)
    (body : Except String Unit) (cacheFails : Bool) (gid : Nat)
    (h : (process_locally raw free body cacheFails).selected = some gid) :
    gpuStatusOf (process_locally raw free body cacheFails).gpus gid
        = some GpuStatus.idle
    ∧ (process_locally raw free body cacheFails).sem
        = (init_gpu_resources raw).length
    ∧ ((process_locally raw free body cacheFails).result
          = Except.ok (LocalResult.success gid)
        ∨ (process_locally raw free body cacheFails).result
          = Except.ok (LocalResult.errorDict gid)) := by
  by_cases hempty : init_gpu_resources raw = []
  · exfalso
    simp [process_locally, hempty] at h
  · cases hsel : selectLoop (init_gpu_resources raw) free
        ((minRequiredMemory (init_gpu_resources raw) : ℤ) : ℚ) 10 0 with
    | none =>
      exfalso
      simp [process_locally, hempty, hsel] at h
    | some gid' =>
      have hgid : gid' = gid := by
        have h2 := h
        simp [process_locally, hempty, hsel, tryCacheRelease_ok] at h2
        exact h2
      subst hgid
      refine ⟨?_, ?_, ?_⟩
      · simp [process_locally, hempty, hsel, tryCacheRelease_ok, markGpu_twice]
        exact statusOf_markGpu _ _ _ (selectLoop_mem _ _ _ 10 0 gid' hsel)
      · have hpos : 0 < (init_gpu_resources raw).length :=
          List.length_pos.mpr hempty
        simp [process_locally, hempty, hsel, tryCacheRelease_ok]
        omega
      · cases body with
        | ok u =>
          left
          simp [process_locally, hempty, hsel, tryCacheRelease_ok]
        | error e =>
          right
          simp [process_locally, hempty, hsel, tryCacheRelease_ok]

/-- C1 witness: a single discovered 16000 MB device with ample free
memory, a raising subprocess body, and a failing VRAM-cache release. -/
theorem C1_release_invariant_witness :
    gpuStatusOf (process_locally [(0, 16000)] (fun _ _ => some 16000)
        (Except.error "subprocess failed") true).gpus 0 = some GpuStatus.idle
    ∧ (process_locally [(0, 16000)] (fun _ _ => some 16000)
        (Except.error "subprocess failed") true).sem
        = (init_gpu_resources [(0, 16000)]).length
    ∧ ((process_locally [(0, 16000)] (fun _ _ => some 16000)
          (Except.error "subprocess failed") true).result
            = Except.ok (LocalResult.success 0)
        ∨ (process_locally [(0, 16000)] (fun _ _ => some 16000)
          (Except.error "subprocess failed") true).result
            = Except.ok (LocalResult.errorDict 0)) :=
  C1_release_invariant [(0, 16000)] (fun _ _ => some 16000)
    (Except.error "subprocess failed") true 0 process_locally_single16000_selected

/-- C3: the acquisition threshold is `int(average total memory * 0.7)` —
11200 for a single 16000 MB device; an idle device qualifies exactly when
its live free memory is at least the threshold (10000 MB free does not
qualify, 12000 MB does); among the qualifying devices, selection returns
one of maximal free memory, and marking sets the selected device's status
to busy. -/
theorem C3_threshold_and_selection :
    minRequiredMemory [{ id := 0, status := GpuStatus.idle, memory_total := 16000 }]
        = 11200
    ∧ get_available_gpus [{ id := 0, status := GpuStatus.idle, memory_total := 16000 }]
        (fun _ => some 10000) 11200 = []
    ∧ get_available_gpus [{ id := 0, status := GpuStatus.idle, memory_total := 16000 }]
        (fun _ => some 12000) 11200 = [(0, 12000)]
    ∧ (∀ gpus free minMem i f, (i, f) ∈ get_available_gpus gpus free minMem ↔
        ∃ g ∈ gpus, g.id = i ∧ g.status = GpuStatus.idle ∧ free g.id = some f
          ∧ minMem ≤ f)
    ∧ (∀ avail p, selectGpu avail = some p → p ∈ avail ∧ ∀ q ∈ avail, q.2 ≤ p.2)
    ∧ (∀ gpus gid, (∃ g ∈ gpus, g.id = gid) →
        gpuStatusOf (markGpu gpus gid GpuStatus.busy) gid = some GpuStatus.busy) := by
  refine ⟨minRequired_single16000, avail_single16000_free10000,
    avail_single16000_free12000, mem_get_available_gpus, selectGpu_spec, ?_⟩
  intro gpus gid hex
  exact statusOf_markGpu gpus gid GpuStatus.busy hex

/-- C3 witness: the 12000 MB-free device qualifies against the 11200
threshold and is marked busy once selected. -/
theorem C3_threshold_and_selection_witness :
    ((0, 12000) ∈ get_available_gpus
        [{ id := 0, status := GpuStatus.idle, memory_total := 16000 }]
        (fun _ => some 12000) 11200)
    ∧ gpuStatusOf (markGpu [{ id := 0, status := GpuStatus.idle, memory_total := 16000 }]
        0 GpuStatus.busy) 0 = some GpuStatus.busy := by
  constructor
  · exact (C3_threshold_and_selection.2.2.2.1
        [{ id := 0, status := GpuStatus.idle, memory_total := 16000 }]
        (fun _ => some 12000) 11200 0 12000).mpr
      ⟨{ id := 0, status := GpuStatus.idle, memory_total := 16000 },
        List.mem_singleton.mpr rfl, rfl, rfl, rfl, by norm_num⟩
  · exact C3_threshold_and_selection.2.2.2.2.2
      [{ id := 0, status := GpuStatus.idle, memory_total := 16000 }] 0
      ⟨{ id := 0, status := GpuStatus.idle, memory_total := 16000 },
        List.mem_singleton.mpr rfl, rfl⟩

/-! ### Claims C2, C4, C5: the remote retry protocol -/

/-- C2: under permanently failing transport (every attempt raising a
connection or timeout error), `process_remotely` with `max_retries = 3`
makes exactly 3 dispatch attempts and then raises the terminal
retry-exhausted `RuntimeError`; the back-off sleeps are 2, 4 and 8 seconds
— as the explicit trace shows, the 2- and 4-second sleeps fall between
consecutive attempts and the 8-second sleep follows the third (final)
attempt just before the exhaustion error is raised. -/
theorem C2_retry_exhaustion (devs : List RemoteDevice) (health : Nat → String → Bool)
    (h : ∀ r, ∃ n ∈ devs.map RemoteDevice.name, health r n = true) :
    (process_remotely devs health (fun _ => AttemptOutcome.transportErr) 3).outcome
        = RemoteOutcome.raisedExhausted
    ∧ countAttempts
        (process_remotely devs health (fun _ => AttemptOutcome.transportErr) 3).trace = 3
    ∧ sleepsOf
        (process_remotely devs health (fun _ => AttemptOutcome.transportErr) 3).trace
        = [2, 4, 8]
    ∧ ∃ d1 d2 d3,
        (process_remotely devs health (fun _ => AttemptOutcome.transportErr) 3).trace
          = [RemoteEvent.markBusy d1, RemoteEvent.attempt 0 d1,
             RemoteEvent.sleep 2, RemoteEvent.markIdle d1,
             RemoteEvent.markBusy d2, RemoteEvent.attempt 1 d2,
             RemoteEvent.sleep 4, RemoteEvent.markIdle d2,
             RemoteEvent.markBusy d3, RemoteEvent.attempt 2 d3,
             RemoteEvent.sleep 8, RemoteEvent.markIdle d3] := by
  obtain ⟨hout, ns, hlen, htr⟩ := remoteLoop_transport health 3 0 devs h
  obtain ⟨d1, d2, d3, rfl⟩ := List.length_eq_three.mp hlen
  refine ⟨hout, ?_, ?_, d1, d2, d3, ?_⟩
  · rw [process_remotely, htr, countAttempts_transportTrace]
    exact hlen
  · rw [process_remotely, htr]
    rfl
  · rw [process_remotely, htr]
    rfl

/-- C2 witness: the configured remote pool (one device, `gpu-node-1`) with
an always-healthy probe. -/
theorem C2_retry_exhaustion_witness :
    (process_remotely
        [{ name := "gpu-node-1", ip := "192.168.230.29", port := 8000,
           device_type := "cuda", status := RemoteStatus.idle }]
        (fun _ _ => true) (fun _ => AttemptOutcome.transportErr) 3).outcome
        = RemoteOutcome.raisedExhausted
    ∧ countAttempts (process_remotely
        [{ name := "gpu-node-1", ip := "192.168.230.29", port := 8000,
           device_type := "cuda", status := RemoteStatus.idle }]
        (fun _ _ => true) (fun _ => AttemptOutcome.transportErr) 3).trace = 3
    ∧ sleepsOf (process_remotely
        [{ name := "gpu-node-1", ip := "192.168.230.29", port := 8000,
           device_type := "cuda", status := RemoteStatus.idle }]
        (fun _ _ => true) (fun _ => AttemptOutcome.transportErr) 3).trace = [2, 4, 8] := by
  have h := C2_retry_exhaustion
      [{ name := "gpu-node-1", ip := "192.168.230.29", port := 8000,
         device_type := "cuda", status := RemoteStatus.idle }]
      (fun _ _ => true)
      (fun r => ⟨"gpu-node-1", by simp, rfl⟩)
  exact ⟨h.1, h.2.1, h.2.2.1⟩

/-- C4: an application-level error — non-200 HTTP status, or a payload
whose status field is not success — on the first attempt makes
`process_remotely` raise immediately after exactly one dispatch attempt,
whatever retry budget remains. -/
theorem C4_app_error_no_retry (devs : List RemoteDevice) (health : Nat → String → Bool)
    (att : Nat → AttemptOutcome) (max_retries : Nat)
    (hdev : ∃ n ∈ devs.map RemoteDevice.name, health 0 n = true)
    (happ : att 0 = AttemptOutcome.httpErr ∨ att 0 = AttemptOutcome.statusErr)
    (hmr : 0 < max_retries) :
    ∃ d, (process_remotely devs health att max_retries).outcome
          = RemoteOutcome.raisedApp d
    ∧ countAttempts (process_remotely devs health att max_retries).trace = 1 := by
  obtain ⟨fuel, rfl⟩ : ∃ fuel, max_retries = fuel + 1 :=
    ⟨max_retries - 1, (Nat.succ_pred_eq_of_pos hmr).symm⟩
  obtain ⟨d, hd⟩ := sweep_find_some (health 0) devs hdev
  rw [process_remotely]
  simp only [remoteLoop, get_available_remote_device]
  rw [hd]
  rcases happ with h0 | h0 <;>
    exact ⟨d.name, by rw [h0], by rw [h0]; rfl⟩

/-- C4 witness: one healthy device, an HTTP-500-style first attempt, and a
remaining budget of 3. -/
theorem C4_app_error_no_retry_witness :
    ∃ d, (process_remotely
        [{ name := "gpu-node-1", ip := "192.168.230.29", port := 8000,
           device_type := "cuda", status := RemoteStatus.idle }]
        (fun _ _ => true) (fun _ => AttemptOutcome.httpErr) 3).outcome
          = RemoteOutcome.raisedApp d
    ∧ countAttempts (process_remotely
        [{ name := "gpu-node-1", ip := "192.168.230.29", port := 8000,
           device_type := "cuda", status := RemoteStatus.idle }]
        (fun _ _ => true) (fun _ => AttemptOutcome.httpErr) 3).trace = 1 :=
  C4_app_error_no_retry
    [{ name := "gpu-node-1", ip := "192.168.230.29", port := 8000,
       device_type := "cuda", status := RemoteStatus.idle }]
    (fun _ _ => true) (fun _ => AttemptOutcome.httpErr) 3
    ⟨"gpu-node-1", by simp, rfl⟩ (Or.inl rfl) (by decide)

/-- C5: in every `process_remotely` run — whatever the attempt outcomes —
the trace obeys the holding discipline (a device marked busy for an
attempt is marked idle again before the next attempt's busy-marking and
before the end of the run), and when no device of the initial pool is
busy (as in the static configuration) no device is left busy when the
function returns or raises. -/
theorem C5_device_restoration (devs : List RemoteDevice) (health : Nat → String → Bool)
    (att : Nat → AttemptOutcome) (max_retries : Nat) :
    balancedTrace (process_remotely devs health att max_retries).trace = true
    ∧ (noBusyDevice devs →
        noBusyDevice (process_remotely devs health att max_retries).devs) := by
  constructor
  · exact remoteLoop_balanced health att max_retries 0 devs
  · intro h
    exact remoteLoop_noBusy health att max_retries 0 devs h

/-- C5 witness: the configured pool, a flaky health probe and mixed
attempt outcomes. -/
theorem C5_device_restoration_witness :
    balancedTrace (process_remotely
        [{ name := "gpu-node-1", ip := "192.168.230.29", port := 8000,
           device_type := "cuda", status := RemoteStatus.idle }]
        (fun r _ => r % 2 == 0)
        (fun r => if r = 0 then AttemptOutcome.transportErr else AttemptOutcome.success)
        3).trace = true
    ∧ noBusyDevice (process_remotely
        [{ name := "gpu-node-1", ip := "192.168.230.29", port := 8000,
           device_type := "cuda", status := RemoteStatus.idle }]
        (fun r _ => r % 2 == 0)
        (fun r => if r = 0 then AttemptOutcome.transportErr else AttemptOutcome.success)
        3).devs := by
  have h := C5_device_restoration
      [{ name := "gpu-node-1", ip := "192.168.230.29", port := 8000,
         device_type := "cuda", status := RemoteStatus.idle }]
      (fun r _ => r % 2 == 0)
      (fun r => if r = 0 then AttemptOutcome.transportErr else AttemptOutcome.success) 3
  refine ⟨h.1, h.2 ?_⟩
  intro d hd
  rcases List.mem_singleton.mp hd with rfl
  decide

/-! ### Claims C6, C7, C10: core-file key normalization -/

/-- C6 counterexample: contrary to the claim's fallback example, the raw
key "notes.txt" does match a pattern of the table — the first pattern
".txt" is a substring of "notes.txt" — so `normalize_core_files` maps it
to the canonical key "model_output.txt", not to its base filename
"notes.txt". -/
theorem C6_counterexample :
    normalize_core_files [("notes.txt", "u")] = [("model_output.txt", "u")]
    ∧ decide (normalize_core_files [("notes.txt", "u")]
        = [("notes.txt", "u")]) = false := by
  exact ⟨by decide, by decide⟩

/-- C6 (amended): `normalize_core_files` maps a raw key containing
"_middle.json" (e.g. "foo_middle.json") to the canonical key "middle.json"
under first-matching-pattern-wins (e.g. "a_middle.json.txt" hits the
earlier ".txt" pattern first and becomes "model_output.txt"), and maps a
key matching no pattern of the table, such as "notes.html", to its base
filename; "notes.txt" is not such a key — it matches the ".txt" pattern
and maps to "model_output.txt". -/
theorem C6_amended :
    normalize_core_files [("foo_middle.json", "u1")] = [("middle.json", "u1")]
    ∧ normalize_core_files [("a_middle.json.txt", "u2")] = [("model_output.txt", "u2")]
    ∧ normalize_core_files [("notes.html", "u3")] = [("notes.html", "u3")]
    ∧ normalize_core_files [("sub/dir/notes.html", "u4")] = [("notes.html", "u4")]
    ∧ normalize_core_files [("notes.txt", "u5")] = [("model_output.txt", "u5")] := by
  decide

/-- C7: `normalize_core_files` is idempotent — renormalizing any
normalized mapping yields the same mapping — and in particular a mapping
whose keys are already the four canonical keys is returned unchanged. -/
theorem C7_normalization_idempotent :
    (∀ m, normalize_core_files (normalize_core_files m) = normalize_core_files m)
    ∧ (∀ u1 u2 u3 u4,
        normalize_core_files
            [("model_output.txt", u1), ("result.md", u2),
             ("middle.json", u3), ("content_list.json", u4)]
          = [("model_output.txt", u1), ("result.md", u2),
             ("middle.json", u3), ("content_list.json", u4)]) := by
  constructor
  · intro m
    have hnodup : (dictKeys (normalize_core_files m)).Nodup := by
      rw [normalize_eq_normAux]
      exact normAux_nodup m [] List.nodup_nil
    have hfix : ∀ k ∈ dictKeys (normalize_core_files m), normalizeKey k = k := by
      intro k hk
      rw [normalize_eq_normAux] at hk
      rcases normAux_keys_origin m [] k hk with h | ⟨k0, rfl⟩
      · exact absurd h (by simp [dictKeys])
      · exact normalizeKey_fix k0
    have hres := normAux_fixed (normalize_core_files m) [] hfix hnodup
      (by intro k hk; exact absurd hk (by simp [dictKeys]))
    rw [normalize_eq_normAux, hres]
    simp
  · intro u1 u2 u3 u4
    have hkeys : dictKeys [("model_output.txt", u1), ("result.md", u2),
        ("middle.json", u3), ("content_list.json", u4)]
        = ["model_output.txt", "result.md", "middle.json", "content_list.json"] := rfl
    have hnodup : (dictKeys [("model_output.txt", u1), ("result.md", u2),
        ("middle.json", u3), ("content_list.json", u4)]).Nodup := by
      rw [hkeys]
      decide
    have hfix : ∀ k ∈ dictKeys [("model_output.txt", u1), ("result.md", u2),
        ("middle.json", u3), ("content_list.json", u4)], normalizeKey k = k := by
      rw [hkeys]
      decide
    have hres := normAux_fixed [("model_output.txt", u1), ("result.md", u2),
        ("middle.json", u3), ("content_list.json", u4)] [] hfix hnodup
      (by intro k hk; exact absurd hk (by simp [dictKeys]))
    rw [normalize_eq_normAux, hres]
    simp

/-- C10: `normalize_core_files` is not injective on keys — "foo.txt" and
"bar.txt" both contain the first pattern ".txt", both are assigned the
canonical key "model_output.txt", the later entry overwrites the earlier
one, the output has strictly fewer entries than the input, and the URL
"u1" of the first entry no longer appears among the output's values. -/
theorem C10_key_collision :
    normalize_core_files [("foo.txt", "u1"), ("bar.txt", "u2")]
        = [("model_output.txt", "u2")]
    ∧ (normalize_core_files [("foo.txt", "u1"), ("bar.txt", "u2")]).length
        < ([("foo.txt", "u1"), ("bar.txt", "u2")] : List (String × String)).length
    ∧ (normalize_core_files [("foo.txt", "u1"), ("bar.txt", "u2")]).all
        (fun kv => kv.2 != "u1") = true := by
  decide

/-! ### Claim C8: no partial success for combined jobs -/

/-- C8: when text extraction has succeeded but the image-description step
raises (its internal `try/except` turns the raise into a `status: error`
dict) or otherwise reports an error status, `process_combined_task`
writes `{status: error}` to the result channel — never a partial success —
regardless of what the merge stage would have produced. -/
theorem C8_no_partial_success :
    (∀ e, (execute_image_description (Except.error e)).status = StepStatus.error)
    ∧ (∀ extract imgBody merge, extract.status = StepStatus.success →
        (execute_image_description imgBody).status = StepStatus.error →
        process_combined_task (Except.ok ()) extract imgBody merge
          = StepStatus.error) := by
  refine ⟨fun e => rfl, ?_⟩
  intro extract imgBody merge hex himg
  simp [process_combined_task, hex, himg]

/-- C8 witness: successful extraction, a raising image-description body,
and a merge stage that would have succeeded. -/
theorem C8_no_partial_success_witness :
    process_combined_task (Except.ok ())
        { status := StepStatus.success, errorMsg := none }
        (Except.error "image description failed")
        { status := StepStatus.success, errorMsg := none } = StepStatus.error :=
  C8_no_partial_success.2 _ _ _ rfl rfl

/-! ### Claim C9: the office-to-PDF conversion -/

/-- C9 counterexample: the office converter the pipeline uses
(`office_service.convert_to_pdf`, imported by `preprocess_file`) makes
exactly one subprocess invocation — not 3 — passes no `timeout` argument
to it — not 300 seconds — performs no inter-retry sleeps, and reports the
failed conversion as `None`. -/
theorem C9_counterexample :
    (office_convert_to_pdf "report.docx" ".docx" "/data" "/data/report.pdf"
        (some "/usr/bin/libreoffice") 1 false).attempts = 1
    ∧ decide ((office_convert_to_pdf "report.docx" ".docx" "/data" "/data/report.pdf"
        (some "/usr/bin/libreoffice") 1 false).attempts = 3) = false
    ∧ (office_convert_to_pdf "report.docx" ".docx" "/data" "/data/report.pdf"
        (some "/usr/bin/libreoffice") 1 false).timeouts = [none]
    ∧ (office_convert_to_pdf "report.docx" ".docx" "/data" "/data/report.pdf"
        (some "/usr/bin/libreoffice") 1 false).sleeps = []
    ∧ (office_convert_to_pdf "report.docx" ".docx" "/data" "/data/report.pdf"
        (some "/usr/bin/libreoffice") 1 false).result = none := by
  decide

/-- C9 (amended): the pipeline's office-to-PDF conversion
(`office_service.convert_to_pdf`) runs the converter headless and makes a
single conversion attempt with no subprocess timeout and no retry delays,
reporting failure as `None`; the 300-second subprocess timeout with up to
3 attempts and 5-second inter-retry delays belongs to the separate
utility converter `pdf_utils.convert_to_pdf`, which the pipeline's
preprocessing does not use. -/
theorem C9_amended (rc : Int) (produced : Bool) (lo input outdir outfile : String) :
    "--headless" ∈ (office_convert_to_pdf input ".docx" outdir outfile
        (some lo) rc produced).cmd
    ∧ (office_convert_to_pdf input ".docx" outdir outfile (some lo) rc produced).attempts
        = 1
    ∧ (office_convert_to_pdf input ".docx" outdir outfile (some lo) rc produced).sleeps
        = []
    ∧ (office_convert_to_pdf input ".docx" outdir outfile (some lo) rc produced).timeouts
        = [none]
    ∧ (office_convert_to_pdf input ".docx" outdir outfile (some lo) rc produced).result
        = (if rc = 0 ∧ produced = true then some outfile else none)
    ∧ pdf_utils_convert (fun _ => SubOutcome.completes false) "out.pdf"
        = { result := none, attempts := 3, sleeps := [2, 5, 2, 5, 2],
            timeouts := [300, 300, 300] } := by
  have hrun : office_convert_to_pdf input ".docx" outdir outfile (some lo) rc produced
      = if rc = 0 ∧ produced = true then
          { result := some outfile, attempts := 1, sleeps := [], timeouts := [none],
            cmd := [lo, "--headless", "--convert-to", "pdf", "--outdir", outdir, input] }
        else
          { result := none, attempts := 1, sleeps := [], timeouts := [none],
            cmd := [lo, "--headless", "--convert-to", "pdf", "--outdir", outdir, input] } := by
    simp only [office_convert_to_pdf]
    rw [if_neg (by decide : ¬(".docx" : String) = ".pdf"),
        if_neg (by decide : ¬(".docx" : String) ∉ OFFICE_EXTENSIONS)]
  refine ⟨?_, ?_, ?_, ?_, ?_, by decide⟩ <;> rw [hrun] <;> split_ifs <;> simp

end MinerUVision
